import Mathlib

/-!
# Verification of BetaBriteWriter.py

A shallow embedding of the scheduling, alert-state, encoding and retry logic
of `BetaBriteWriter.py`, together with theorems settling the specification
claims about that logic.  Pure Python functions become Lean functions;
datetimes are modelled to second precision; fallible fetches are modelled by
`Option` outcomes.
-/

namespace BetaBriteWriter

/-- `SCHEDULED_HOURS`: daily anchor hours for forecast refresh. -/
def SCHEDULED_HOURS : List Nat := [0, 3, 6, 9, 12, 15, 18, 21]

/-- `NWS_SCHEDULED_MINUTES`: baseline minute marks for fine-grained alert polls. -/
def NWS_SCHEDULED_MINUTES : List Nat := [0, 5, 10, 15, 20, 25, 30, 35, 40, 45, 50, 55]

/-- `NHC_SCHEDULED_HOURS`: hours at which the coarse storm feed is polled. -/
def NHC_SCHEDULED_HOURS : List Nat := [5, 11, 17, 23]

/-- `MAX_DISPLAY_MESSAGE_SIZE`. -/
def MAX_DISPLAY_MESSAGE_SIZE : Nat := 2048

/-- `MAX_SEND_RETRY_TIME` (seconds). -/
def MAX_SEND_RETRY_TIME : Nat := 300

/-! ## Datetime model

The Python code manipulates `datetime` values only through `.replace` of the
hour/minute/second fields, addition of `timedelta`s of whole days, hours,
minutes, and comparison.  We model a datetime as a day index plus
hour/minute/second fields (microseconds are identified with zero: every
`replace` in the modelled code zeroes them together with the seconds). -/

structure DT where
  day : Nat
  hour : Nat
  minute : Nat
  second : Nat
deriving Repr, DecidableEq

/-- Total seconds represented by a datetime; comparison of valid datetimes is
comparison of `toSecs`. -/
def DT.toSecs (t : DT) : Nat := ((t.day * 24 + t.hour) * 60 + t.minute) * 60 + t.second

/-- A datetime with in-range fields, as Python `datetime` guarantees. -/
def DT.valid (t : DT) : Prop := t.hour < 24 ∧ t.minute < 60 ∧ t.second < 60

/-- Normalized datetime from a count of seconds. -/
def DT.ofSecs (n : Nat) : DT :=
  ⟨n / 86400, n % 86400 / 3600, n % 3600 / 60, n % 60⟩

/-- `t + timedelta(seconds=n)`. -/
def DT.addSecs (t : DT) (n : Nat) : DT := DT.ofSecs (t.toSecs + n)

/-! ## Display window evaluator (`is_display_active`, lines 318-331)

The source parses `settings["ON_TIME"]`/`settings["OFF_TIME"]` with
`strptime("%H:%M")` and compares `time` objects; comparison of `time` objects
is comparison of their seconds-of-day.  `on_time`/`off_time` are whole-minute
times, `now.time()` is an arbitrary second of the day.  The function reads
only its arguments (it never touches the `ThreadSafeState` global), so it is
modelled as a pure function. -/

/-- Seconds-of-day of an `HH:MM` time object. -/
def timeOfDaySecs (h m : Nat) : Nat := (h * 60 + m) * 60

/-- `is_display_active`: the ON/OFF window test, with the ON and OFF times
given as parsed (hour, minute) pairs and `nowT` the current second of day. -/
def is_display_active (onH onM offH offM : Nat) (nowT : Nat) : Bool :=
  let on_time := timeOfDaySecs onH onM
  let off_time := timeOfDaySecs offH offM
  if on_time < off_time then
    decide (on_time ≤ nowT) && decide (nowT < off_time)
  else
    decide (nowT ≥ on_time) || decide (nowT < off_time)

/-! ## Time-format validation (`Validator.time_format`, lines 308-314) -/

/-- Greedy match of one or two leading decimal digits, as `strptime`'s `%H`
and `%M` directives do. -/
def takeDigits2 : List Char → List Char × List Char
  | [] => ([], [])
  | c1 :: rest =>
    if c1.isDigit then
      match rest with
      | c2 :: rest2 => if c2.isDigit then ([c1, c2], rest2) else ([c1], rest)
      | [] => ([c1], [])
    else ([], c1 :: rest)

/-- Numeric value of a digit string. -/
def digitsVal (l : List Char) : Nat :=
  l.foldl (fun a c => a * 10 + (c.toNat - '0'.toNat)) 0

/-- `datetime.strptime(timestr, "%H:%M")`: one or two digits for the hour
(value 0-23), a colon, one or two digits for the minute (value 0-59), end of
input; `none` models the `ValueError` path. -/
def strptimeHM (s : List Char) : Option (Nat × Nat) :=
  let p1 := takeDigits2 s
  if p1.1.isEmpty then none
  else
    let h := digitsVal p1.1
    if 24 ≤ h then none
    else
      match p1.2 with
      | ':' :: r2 =>
        let p2 := takeDigits2 r2
        if p2.1.isEmpty then none
        else
          let m := digitsVal p2.1
          if 60 ≤ m then none
          else if p2.2.isEmpty then some (h, m) else none
      | _ => none

/-- `Validator.time_format`: true iff `strptime("%H:%M")` succeeds. -/
def time_format (s : List Char) : Bool := (strptimeHM s).isSome

/-- The acceptance test of menu option 4 in `review_settings` (lines 841-850):
a new ON/OFF pair is stored exactly when both strings pass
`Validator.time_format`; no other configuration-time check is applied. -/
def accept_on_off_times (onStr offStr : List Char) : Bool :=
  time_format onStr && time_format offStr

/-! ## Claim C1 -/

/-- C1: for parsed ON/OFF times, `is_display_active` is true on a normal
window `onTime < offTime` exactly when `onTime ≤ now.time < offTime`, and on
an overnight window `onTime ≥ offTime` exactly when `now.time ≥ onTime` or
`now.time < offTime`; the function is a pure function of its arguments. -/
theorem is_display_active_iff (onH onM offH offM nowT : Nat) :
    (timeOfDaySecs onH onM < timeOfDaySecs offH offM →
      (is_display_active onH onM offH offM nowT = true ↔
        timeOfDaySecs onH onM ≤ nowT ∧ nowT < timeOfDaySecs offH offM)) ∧
    (timeOfDaySecs offH offM ≤ timeOfDaySecs onH onM →
      (is_display_active onH onM offH offM nowT = true ↔
        nowT ≥ timeOfDaySecs onH onM ∨ nowT < timeOfDaySecs offH offM)) := by
  unfold is_display_active
  constructor
  · intro hlt
    rw [if_pos hlt]
    simp
  · intro hge
    rcases Nat.lt_or_ge (timeOfDaySecs onH onM) (timeOfDaySecs offH offM) with h | h
    · omega
    · rw [if_neg (by omega)]
      simp

/-- Witness for C1: ON=06:00, OFF=22:00, now=10:00:00 is inside the window;
ON=22:00, OFF=06:00, now=23:30:00 is inside the overnight window. -/
theorem is_display_active_iff_witness :
    is_display_active 6 0 22 0 36000 = true ∧
    is_display_active 22 0 6 0 84600 = true := by
  constructor
  · exact ((is_display_active_iff 6 0 22 0 36000).1 (by decide)).mpr (by decide)
  · exact ((is_display_active_iff 22 0 6 0 84600).2 (by decide)).mpr (by decide)

/-! ## Claim C9

The claim asserts that `ON_TIME == OFF_TIME` is rejected at the configuration
boundary and never reaches the evaluator.  In the source, the only
configuration-time check on these fields is `Validator.time_format`, which
tests `HH:MM` syntax of each string separately, so an equal pair of valid
times is accepted and stored; `is_display_active` then receives it and
handles it through its overnight branch. -/

/-- C9 counterexample: the configuration boundary accepts
`ON_TIME = OFF_TIME = "06:00"` (both strings pass `time_format`, which is all
`review_settings` checks), so an equal pair is not rejected; moreover the
evaluator is reachable with that pair and returns a value (true) for it. -/
theorem equal_on_off_accepted :
    accept_on_off_times ['0', '6', ':', '0', '0'] ['0', '6', ':', '0', '0'] = true ∧
    is_display_active 6 0 6 0 0 = true := by
  constructor
  · rfl
  · rfl

/-- C9 amended: no configuration-time validation rejects equal ON/OFF times —
any ON/OFF pair in which both strings pass `time_format` is accepted, equal
or not; and the evaluator itself does handle `onTime == offTime`, through its
overnight branch, reporting the display active at every time of day. -/
theorem equal_on_off_semantics (s1 s2 : List Char)
    (h1 : time_format s1 = true) (h2 : time_format s2 = true) :
    accept_on_off_times s1 s2 = true ∧
    (∀ h m nowT : Nat, is_display_active h m h m nowT = true) := by
  constructor
  · unfold accept_on_off_times
    rw [h1, h2]
    rfl
  · intro h m nowT
    unfold is_display_active
    rw [if_neg (by omega)]
    simp
    omega

/-- Witness for C9 amended: both `"06:00"` and `"22:00"` pass `time_format`,
so the pair is accepted, and an equal pair makes the evaluator constantly
true. -/
theorem equal_on_off_semantics_witness :
    accept_on_off_times ['0', '6', ':', '0', '0'] ['2', '2', ':', '0', '0'] = true ∧
    is_display_active 13 30 13 30 41234 = true := by
  have h := equal_on_off_semantics ['0', '6', ':', '0', '0'] ['2', '2', ':', '0', '0']
    (by decide) (by decide)
  exact ⟨h.1, h.2 13 30 41234⟩

/-! ## Forecast cycle planner (`get_forecast_times`, lines 345-380) -/

/-- `now.replace(minute=0, second=0, microsecond=0)`. -/
def snapHour (t : DT) : DT := { t with minute := 0, second := 0 }

/-- One step of the "next 2 scheduled hours" loop in `get_forecast_times`:
the first anchor hour strictly after `current.hour` on the same day, rolling
to the next day's first anchor hour past the last anchor. -/
def nextScheduledAfter (current : DT) : DT :=
  match SCHEDULED_HOURS.filter (fun h => decide (current.hour < h)) with
  | nh :: _ => { current with hour := nh, minute := 0, second := 0 }
  | [] => { current with day := current.day + 1, hour := 0, minute := 0, second := 0 }

/-- `get_forecast_times`: the current time (snapped to the top of the hour
when inside the first 5 minutes of an anchor hour) followed by the next two
anchor instants. -/
def get_forecast_times (now : DT) : List DT :=
  let current := if now.hour ∈ SCHEDULED_HOURS ∧ now.minute < 5 then snapHour now else now
  [current, nextScheduledAfter current, nextScheduledAfter (nextScheduledAfter current)]

/-! ## Alert poll scheduler (`get_next_nws_check` lines 398-410,
`get_nearest_5min_mark` lines 413-419) -/

/-- `get_next_nws_check`: `now + timedelta(minutes=2)` while an alert is
active, otherwise the first baseline minute mark strictly greater than
`now.minute` (seconds zeroed), wrapping to the next hour's `:00`. -/
def get_next_nws_check (now : DT) (alert_active : Bool) : DT :=
  if alert_active then
    now.addSecs 120
  else
    match NWS_SCHEDULED_MINUTES.find? (fun m => decide (now.minute < m)) with
    | some m => { now with minute := m, second := 0 }
    | none => (snapHour now).addSecs 3600

/-- `get_nearest_5min_mark`: the first baseline minute mark `m` with
`now.minute ≤ m` (seconds zeroed), wrapping to the next hour's `:00`. -/
def get_nearest_5min_mark (now : DT) : DT :=
  match NWS_SCHEDULED_MINUTES.find? (fun m => decide (now.minute ≤ m)) with
  | some m => { now with minute := m, second := 0 }
  | none => (snapHour now).addSecs 3600

/-! ## Claim C2

The alert-active branch indeed returns `now + 2 minutes`.  But on alert
clear the main loop (line 1072) schedules `get_nearest_5min_mark(now)`, and
when `now.minute` is itself a baseline mark and `now.second > 0` that call
returns the mark at the *current* minute with seconds zeroed — an instant up
to 59 seconds in the past, not the nearest grid mark `≥ now`, so the next
poll fires immediately on the following loop tick. -/

/-- C2 counterexample: at 12:15:30 (minute 15 is a baseline mark, seconds
nonzero) `get_nearest_5min_mark` returns 12:15:00, which is strictly before
`now` — not a grid mark `≥ now` (that would be 12:20:00) — so an alert
clearing at that instant fires the next poll immediately rather than
re-aligning forward to the grid. -/
theorem nearest_mark_can_precede_now :
    get_nearest_5min_mark ⟨0, 12, 15, 30⟩ = ⟨0, 12, 15, 0⟩ ∧
    DT.toSecs ⟨0, 12, 15, 0⟩ < DT.toSecs ⟨0, 12, 15, 30⟩ := by
  constructor
  · rfl
  · decide

/-- C2 amended: while an alert is active the next computed poll is exactly
`now + 2 minutes`; when the alert clears, the next computed poll is the grid
instant at the smallest baseline minute mark `≥ now.minute` with seconds
zeroed — an instant that precedes `now` by up to 59 seconds when
`now.minute` is itself a mark (firing immediately in that case) — wrapping
to the next hour's `:00` when `now.minute` is past the last mark. -/
theorem nws_next_check_characterization (now : DT) (hm : now.minute < 60) :
    get_next_nws_check now true = now.addSecs 120 ∧
    get_nearest_5min_mark now =
      (if now.minute ≤ 55 then { now with minute := 5 * ((now.minute + 4) / 5), second := 0 }
       else (snapHour now).addSecs 3600) := by
  refine ⟨rfl, ?_⟩
  obtain ⟨d, h, m, s⟩ := now
  simp only at hm
  interval_cases m <;> with_unfolding_all rfl

/-- Witness for C2 amended (the spec's own scenario): an alert clearing at
12:14:00 re-aligns the next poll to 12:15:00, and the active cadence from
12:14:00 is 12:16:00. -/
theorem nws_next_check_characterization_witness :
    get_next_nws_check ⟨0, 12, 14, 0⟩ true = ⟨0, 12, 16, 0⟩ ∧
    get_nearest_5min_mark ⟨0, 12, 14, 0⟩ = ⟨0, 12, 15, 0⟩ := by
  have h := nws_next_check_characterization ⟨0, 12, 14, 0⟩ (by decide)
  refine ⟨?_, ?_⟩
  · rw [h.1]; decide
  · rw [h.2]; decide

/-! ## Claim C3 -/

/-- Every anchor hour is at most 21. -/
theorem scheduled_hours_le (x : Nat) (hx : x ∈ SCHEDULED_HOURS) : x ≤ 21 := by
  fin_cases hx <;> decide

/-- Case analysis of `nextScheduledAfter` on a datetime with a valid hour:
below hour 21 it lands on the same day at an anchor hour at most 3 hours
ahead; from hour 21 on it lands on the next day at hour 0. -/
theorem nextScheduledAfter_form (c : DT) (hh : c.hour < 24) :
    (c.hour < 21 ∧ ∃ h2, h2 ∈ SCHEDULED_HOURS ∧ c.hour < h2 ∧ h2 ≤ c.hour + 3 ∧
      nextScheduledAfter c = ⟨c.day, h2, 0, 0⟩) ∨
    (21 ≤ c.hour ∧ nextScheduledAfter c = ⟨c.day + 1, 0, 0, 0⟩) := by
  obtain ⟨d, h, m, s⟩ := c
  simp only at hh ⊢
  interval_cases h <;>
    first
      | exact Or.inl ⟨by norm_num, 3, by decide, by norm_num, by norm_num, rfl⟩
      | exact Or.inl ⟨by norm_num, 6, by decide, by norm_num, by norm_num, rfl⟩
      | exact Or.inl ⟨by norm_num, 9, by decide, by norm_num, by norm_num, rfl⟩
      | exact Or.inl ⟨by norm_num, 12, by decide, by norm_num, by norm_num, rfl⟩
      | exact Or.inl ⟨by norm_num, 15, by decide, by norm_num, by norm_num, rfl⟩
      | exact Or.inl ⟨by norm_num, 18, by decide, by norm_num, by norm_num, rfl⟩
      | exact Or.inl ⟨by norm_num, 21, by decide, by norm_num, by norm_num, rfl⟩
      | exact Or.inr ⟨by norm_num, rfl⟩

/-- `nextScheduledAfter` strictly advances a valid datetime. -/
theorem nextScheduledAfter_gt (c : DT) (hh : c.hour < 24) (hm : c.minute < 60)
    (hs : c.second < 60) : c.toSecs < (nextScheduledAfter c).toSecs := by
  rcases nextScheduledAfter_form c hh with ⟨h21, h2, hmem, hlt, _, heq⟩ | ⟨h21, heq⟩ <;>
    · rw [heq]
      simp only [DT.toSecs]
      omega

/-- `nextScheduledAfter` advances a valid datetime by at most 3 hours. -/
theorem nextScheduledAfter_le (c : DT) (hh : c.hour < 24) :
    (nextScheduledAfter c).toSecs ≤ c.toSecs + 10800 := by
  rcases nextScheduledAfter_form c hh with ⟨h21, h2, hmem, _, hle, heq⟩ | ⟨h21, heq⟩ <;>
    · rw [heq]
      simp only [DT.toSecs]
      omega

/-- C3: for every valid datetime `now`, `get_forecast_times now` is exactly 3
timestamps, strictly increasing, the last at most `now + 24h`; the first is
`now` snapped to the top of the hour when `now.hour` is an anchor hour and
`now.minute < 5`, else `now` itself; the second and third are anchor
instants (anchor hour, minute and second zero). -/
theorem forecast_times_spec (now : DT) (hh : now.hour < 24) (hm : now.minute < 60)
    (hs : now.second < 60) :
    (get_forecast_times now).length = 3 ∧
    List.Chain' (fun a b : DT => a.toSecs < b.toSecs) (get_forecast_times now) ∧
    (∀ t ∈ get_forecast_times now, t.toSecs ≤ now.toSecs + 86400) ∧
    (get_forecast_times now).head? =
      some (if now.hour ∈ SCHEDULED_HOURS ∧ now.minute < 5
            then ⟨now.day, now.hour, 0, 0⟩ else now) ∧
    (∀ t ∈ (get_forecast_times now).tail,
      t.hour ∈ SCHEDULED_HOURS ∧ t.minute = 0 ∧ t.second = 0) := by
  have hcur : ∀ c : DT, c.hour < 24 → c.minute < 60 → c.second < 60 →
      (get_forecast_times now = [c, nextScheduledAfter c, nextScheduledAfter (nextScheduledAfter c)]) →
      c.toSecs ≤ now.toSecs →
      List.Chain' (fun a b : DT => a.toSecs < b.toSecs) (get_forecast_times now) ∧
      (∀ t ∈ get_forecast_times now, t.toSecs ≤ now.toSecs + 86400) ∧
      (∀ t ∈ (get_forecast_times now).tail,
        t.hour ∈ SCHEDULED_HOURS ∧ t.minute = 0 ∧ t.second = 0) := by
    intro c hch hcm hcs heq hle
    have h1 := nextScheduledAfter_form c hch
    have hg1 := nextScheduledAfter_gt c hch hcm hcs
    have hl1 := nextScheduledAfter_le c hch
    have h1valid : (nextScheduledAfter c).hour < 24 ∧ (nextScheduledAfter c).minute = 0 ∧
        (nextScheduledAfter c).second = 0 ∧ (nextScheduledAfter c).hour ∈ SCHEDULED_HOURS := by
      rcases h1 with ⟨_, h2, hmem, _, _, heq1⟩ | ⟨_, heq1⟩
      · rw [heq1]
        refine ⟨?_, rfl, rfl, ?_⟩
        · show h2 < 24
          have := scheduled_hours_le h2 hmem
          omega
        · show h2 ∈ SCHEDULED_HOURS
          exact hmem
      · rw [heq1]
        refine ⟨?_, rfl, rfl, ?_⟩
        · show (0 : Nat) < 24
          norm_num
        · show (0 : Nat) ∈ SCHEDULED_HOURS
          decide
    have hg2 := nextScheduledAfter_gt (nextScheduledAfter c) h1valid.1
      (by rw [h1valid.2.1]; norm_num) (by rw [h1valid.2.2.1]; norm_num)
    have hl2 := nextScheduledAfter_le (nextScheduledAfter c) h1valid.1
    have h2valid : (nextScheduledAfter (nextScheduledAfter c)).hour ∈ SCHEDULED_HOURS ∧
        (nextScheduledAfter (nextScheduledAfter c)).minute = 0 ∧
        (nextScheduledAfter (nextScheduledAfter c)).second = 0 := by
      rcases nextScheduledAfter_form (nextScheduledAfter c) h1valid.1 with
        ⟨_, h2, hmem, _, _, heq1⟩ | ⟨_, heq1⟩
      · rw [heq1]
        refine ⟨?_, rfl, rfl⟩
        show h2 ∈ SCHEDULED_HOURS
        exact hmem
      · rw [heq1]
        refine ⟨?_, rfl, rfl⟩
        show (0 : Nat) ∈ SCHEDULED_HOURS
        decide
    rw [heq]
    refine ⟨?_, ?_, ?_⟩
    · exact List.chain'_cons.mpr ⟨hg1, List.chain'_cons.mpr ⟨hg2, List.chain'_singleton _⟩⟩
    · intro t ht
      rcases List.mem_cons.mp ht with rfl | ht
      · omega
      rcases List.mem_cons.mp ht with rfl | ht
      · omega
      rcases List.mem_cons.mp ht with rfl | ht
      · omega
      · simp at ht
    · intro t ht
      rcases List.mem_cons.mp ht with rfl | ht
      · exact ⟨h1valid.2.2.2, h1valid.2.1, h1valid.2.2.1⟩
      rcases List.mem_cons.mp ht with rfl | ht
      · exact h2valid
      · simp at ht
  by_cases hsnap : now.hour ∈ SCHEDULED_HOURS ∧ now.minute < 5
  · have heq : get_forecast_times now =
        [snapHour now, nextScheduledAfter (snapHour now),
         nextScheduledAfter (nextScheduledAfter (snapHour now))] := by
      unfold get_forecast_times
      rw [if_pos hsnap]
    have hsnapeq : snapHour now = ⟨now.day, now.hour, 0, 0⟩ := rfl
    have hmain := hcur (snapHour now) hh (by rw [hsnapeq]; norm_num)
      (by rw [hsnapeq]; norm_num) heq (by rw [hsnapeq]; simp only [DT.toSecs]; omega)
    refine ⟨by rw [heq]; rfl, hmain.1, hmain.2.1, ?_, hmain.2.2⟩
    rw [heq, if_pos hsnap]
    rfl
  · have heq : get_forecast_times now =
        [now, nextScheduledAfter now, nextScheduledAfter (nextScheduledAfter now)] := by
      unfold get_forecast_times
      rw [if_neg hsnap]
    have hmain := hcur now hh hm hs heq (le_refl _)
    refine ⟨by rw [heq]; rfl, hmain.1, hmain.2.1, ?_, hmain.2.2⟩
    rw [heq, if_neg hsnap]
    rfl

/-- Witness for C3 (the spec's scenario): at 09:00:02 the times are snapped
09:00:00, then 12:00:00 and 15:00:00. -/
theorem forecast_times_spec_witness :
    (get_forecast_times ⟨0, 9, 0, 2⟩).length = 3 ∧
    (get_forecast_times ⟨0, 9, 0, 2⟩).head? = some ⟨0, 9, 0, 0⟩ := by
  have h := forecast_times_spec ⟨0, 9, 0, 2⟩ (by decide) (by decide) (by decide)
  refine ⟨h.1, ?_⟩
  rw [h.2.2.2.1]
  decide

/-! ## Session state (`ThreadSafeState`, lines 87-168)

Each accessor of `ThreadSafeState` is a single acquire-mutate-release of one
field, so the state is modelled as a record threaded through the mutating
functions.  Timestamps are plain second counts. -/

structure SessionState where
  last_forecast_update : Option Nat
  last_alert_id : Option String
  last_nws_pull : Nat
  last_nhc_pull : Nat
  nhc_active_names : List String
  nws_active_headlines : List String
  display_was_active : Option Bool
  last_forecast_hour : Option Nat
deriving Repr, DecidableEq

/-- One entry of the NWS `features` list: the alert id plus the optional
`properties.headline` field. -/
structure NWSAlert where
  id : String
  headline : Option String
deriving Repr, DecidableEq

/-- One entry of the NHC `activeStorms` list. -/
structure NHCStorm where
  name : Option String
  classification : String
  basin : String
deriving Repr, DecidableEq

/-- `NWSAlerts.check_alerts` (lines 626-653): the pull timestamp is recorded
before the `try` block; `fetch = none` models any exception raised by the
HTTP request, status check or JSON parse (the `except` path only logs). -/
def check_alerts (st : SessionState) (now : Nat) (fetch : Option (List NWSAlert)) :
    SessionState :=
  let st1 := { st with last_nws_pull := now }
  match fetch with
  | none => st1
  | some alerts =>
    match alerts with
    | [] => { st1 with last_alert_id := none, nws_active_headlines := [] }
    | a :: _ =>
      let headlines := alerts.filterMap (fun x => x.headline)
      let st2 := { st1 with nws_active_headlines := headlines }
      if some a.id ≠ st2.last_alert_id then { st2 with last_alert_id := some a.id } else st2

/-- `NHCMonitor.check_storms` (lines 657-684): pull timestamp recorded before
the `try` block; on success the cached storm names become the names of the
Atlantic-basin hurricanes (empty when none match). -/
def check_storms (st : SessionState) (now : Nat) (fetch : Option (List NHCStorm)) :
    SessionState :=
  let st1 := { st with last_nhc_pull := now }
  match fetch with
  | none => st1
  | some storms =>
    let hurricanes := storms.filter
      (fun s => s.classification == "HU" && s.basin.toUpper == "AL")
    match hurricanes with
    | [] => { st1 with nhc_active_names := [] }
    | _ :: _ => { st1 with nhc_active_names := hurricanes.filterMap (fun h => h.name) }

/-! ## Claim C4 -/

/-- C4: both alert polls update their feed's last-poll timestamp
unconditionally, including on fetch failure; a failed poll leaves the cached
active-alert fields (alert id, headline list, storm-name list) unchanged;
and a successful NWS poll sets the alert id to `none` exactly when the feed
reports no alert entries. -/
theorem poll_state_update_rules (st : SessionState) (now : Nat) :
    (∀ fetch, (check_alerts st now fetch).last_nws_pull = now) ∧
    (∀ fetch, (check_storms st now fetch).last_nhc_pull = now) ∧
    ((check_alerts st now none).last_alert_id = st.last_alert_id ∧
      (check_alerts st now none).nws_active_headlines = st.nws_active_headlines ∧
      (check_alerts st now none).nhc_active_names = st.nhc_active_names) ∧
    ((check_storms st now none).nhc_active_names = st.nhc_active_names ∧
      (check_storms st now none).last_alert_id = st.last_alert_id ∧
      (check_storms st now none).nws_active_headlines = st.nws_active_headlines) ∧
    (∀ alerts, ((check_alerts st now (some alerts)).last_alert_id = none ↔ alerts = [])) := by
  refine ⟨?_, ?_, ⟨rfl, rfl, rfl⟩, ⟨rfl, rfl, rfl⟩, ?_⟩
  · intro fetch
    unfold check_alerts
    match fetch with
    | none => rfl
    | some [] => rfl
    | some (a :: rest) =>
      simp only
      split <;> rfl
  · intro fetch
    unfold check_storms
    match fetch with
    | none => rfl
    | some storms =>
      simp only
      split <;> rfl
  · intro alerts
    match alerts with
    | [] => simp [check_alerts]
    | a :: rest =>
      unfold check_alerts
      simp only
      constructor
      · intro h
        exfalso
        split at h <;> simp_all
      · intro h
        simp at h

/-- Witness for C4: a failed poll at time 7 over a state with a cached alert
keeps the alert data, and an empty successful poll clears the alert id. -/
theorem poll_state_update_rules_witness :
    (check_alerts ⟨none, some "a1", 0, 0, ["X"], ["H"], none, none⟩ 7 none).last_nws_pull = 7 ∧
    (check_alerts ⟨none, some "a1", 0, 0, ["X"], ["H"], none, none⟩ 7 none).last_alert_id
      = some "a1" ∧
    ((check_alerts ⟨none, some "a1", 0, 0, ["X"], ["H"], none, none⟩ 7
        (some [])).last_alert_id = none ↔ ([] : List NWSAlert) = []) := by
  have h := poll_state_update_rules ⟨none, some "a1", 0, 0, ["X"], ["H"], none, none⟩ 7
  exact ⟨h.1 none, h.2.2.1.1, h.2.2.2.2 []⟩

/-! ## Claim C8: the NWS branch of the main loop (lines 1052-1076) -/

/-- Result of one pass through the NWS branch of the main loop: the updated
session state, whether `send_forecast` was invoked out of band, and the next
scheduled NWS check. -/
structure NwsIterResult where
  st : SessionState
  forecast_resent : Bool
  next_nws_check : DT
deriving Repr, DecidableEq

/-- The NWS branch of one main-loop iteration with the display ON:
`zone_nonempty` and `due` are the guard `zone and now >= next_nws_check`;
when the guard holds, the poll runs, a change in alert-active status
triggers `send_forecast` in the same iteration, and the next check is
rescheduled (accelerated while active, re-aligned to the grid on clear). -/
def main_nws_iteration (st : SessionState) (now : DT) (zone_nonempty due : Bool)
    (fetch : Option (List NWSAlert)) (next_check : DT) : NwsIterResult :=
  if zone_nonempty && due then
    let was_alert_active := st.last_alert_id.isSome
    let st2 := check_alerts st now.toSecs fetch
    let is_alert_active := st2.last_alert_id.isSome
    let resent := was_alert_active != is_alert_active
    let next :=
      if is_alert_active then get_next_nws_check now true
      else if was_alert_active && !is_alert_active then get_nearest_5min_mark now
      else get_next_nws_check now false
    ⟨st2, resent, next⟩
  else ⟨st, false, next_check⟩

/-- C8: whenever the poll guard holds and the poll changes the alert-active
status (the alert id goes `none` to `some` or `some` to `none`),
`send_forecast` is invoked in that same iteration. -/
theorem alert_transition_triggers_resend (st : SessionState) (now : DT)
    (fetch : Option (List NWSAlert)) (next_check : DT)
    (hchange : st.last_alert_id.isSome ≠ (check_alerts st now.toSecs fetch).last_alert_id.isSome) :
    (main_nws_iteration st now true true fetch next_check).forecast_resent = true := by
  unfold main_nws_iteration
  simp only [Bool.and_self, if_pos]
  simp [bne_iff_ne, hchange]

/-- Witness for C8: a poll that discovers a first alert over an alert-free
state triggers a forecast re-send. -/
theorem alert_transition_triggers_resend_witness :
    (main_nws_iteration ⟨none, none, 0, 0, [], [], none, none⟩ ⟨0, 10, 7, 0⟩ true true
      (some [⟨"a1", some "H"⟩]) ⟨0, 10, 10, 0⟩).forecast_resent = true := by
  apply alert_transition_triggers_resend
  decide

/-! ## Claim C10: `send_forecast` timestamp protocol (lines 688-750)

`send_forecast` first compares `now` against the stored last-forecast-update
timestamp and returns early when the difference is under 300 seconds; past
that guard it immediately stores `now`, and its `except` handler stores
`None`.  The successive writes to `last_forecast_update` in one call are
modelled as a list. -/

/-- The duplicate-update guard (lines 693-696): skip when a last update is
recorded and `now` is less than 300 seconds past it.  (With Python
datetimes a `now` earlier than the stored time gives a negative difference,
also under 300; truncated subtraction models that the same way.) -/
def duplicate_guard_skips (last_update : Option Nat) (now : Nat) : Bool :=
  match last_update with
  | some lu => decide (now - lu < 300)
  | none => false

/-- The sequence of writes to `last_forecast_update` made by one
`send_forecast` call: none when the guard skips; `now` then, on an
exception, `None` (lines 699 and 746-747). `succeeds` is false when any step
after the guard raises. -/
def send_forecast_timestamp_writes (last_update : Option Nat) (now : Nat)
    (succeeds : Bool) : List (Option Nat) :=
  if duplicate_guard_skips last_update now then []
  else if succeeds then [some now] else [some now, none]

/-- C10: a `send_forecast` call that passes the duplicate-update guard first
writes the call time to the last-forecast-update timestamp; if a later step
raises, the final write before returning is `None` (so a failed attempt
never suppresses the next one); if the call succeeds the timestamp is left
equal to the call time. -/
theorem forecast_timestamp_protocol (last_update : Option Nat) (now : Nat) (succeeds : Bool)
    (hpass : duplicate_guard_skips last_update now = false) :
    (send_forecast_timestamp_writes last_update now succeeds).head? = some (some now) ∧
    (succeeds = true →
      (send_forecast_timestamp_writes last_update now succeeds).getLast? = some (some now)) ∧
    (succeeds = false →
      (send_forecast_timestamp_writes last_update now succeeds).getLast? = some none) := by
  unfold send_forecast_timestamp_writes
  rw [hpass]
  cases succeeds <;> simp

/-- Witness for C10: a call at time 1000 over a timestamp recorded at time
100 passes the guard; on success the timestamp ends at 1000, on failure it
ends cleared. -/
theorem forecast_timestamp_protocol_witness :
    (send_forecast_timestamp_writes (some 100) 1000 true).head? = some (some 1000) ∧
    (send_forecast_timestamp_writes (some 100) 1000 false).getLast? = some none := by
  have ht := forecast_timestamp_protocol (some 100) 1000 true (by decide)
  have hf := forecast_timestamp_protocol (some 100) 1000 false (by decide)
  exact ⟨ht.1, hf.2.2 rfl⟩

/-! ## Claim C6: the serial send retry loop (`BetaBrite.send_message`,
lines 595-608)

The loop body attempts `ser.write`; on success it returns `True`
immediately, and on a `SerialException`/`OSError` it reads the elapsed wall
time since the first attempt, returns `False` if that exceeds
`MAX_SEND_RETRY_TIME`, and otherwise sleeps 10 seconds and retries.  A run
of the loop is modelled by the trace of attempt outcomes, each failure
carrying the elapsed-time reading taken after it; because of the 10-second
sleep between attempts, the `i`-th failure's reading is at least `10 * i`.
A trace too short to reach a verdict yields `none`. -/

inductive SendAttempt where
  | success : SendAttempt
  | failure (elapsed : Nat) : SendAttempt
deriving Repr, DecidableEq

/-- The retry loop of `BetaBrite.send_message` over a trace of attempt
outcomes. -/
def send_message_loop : List SendAttempt → Option Bool
  | [] => none
  | SendAttempt.success :: _ => some true
  | SendAttempt.failure e :: rest =>
    if MAX_SEND_RETRY_TIME < e then some false else send_message_loop rest

/-- If the loop runs off a trace without a verdict, every attempt in it was a
failure within the retry budget. -/
theorem send_message_loop_none (trace : List SendAttempt)
    (h : send_message_loop trace = none) :
    ∀ i (hi : i < trace.length), ∃ e,
      trace.get ⟨i, hi⟩ = SendAttempt.failure e ∧ e ≤ MAX_SEND_RETRY_TIME := by
  induction trace with
  | nil => intro i hi; exact absurd hi (by simp)
  | cons a rest ih =>
    intro i hi
    match a with
    | SendAttempt.success => simp [send_message_loop] at h
    | SendAttempt.failure e =>
      unfold send_message_loop at h
      by_cases he : MAX_SEND_RETRY_TIME < e
      · rw [if_pos he] at h
        exact absurd h (by simp)
      · rw [if_neg he] at h
        match i with
        | 0 => exact ⟨e, rfl, by omega⟩
        | i + 1 => exact ih h i (by simpa using hi)

/-- C6: the send loop returns `True` at the first successful write; on a
failure observed past 300 seconds of elapsed wall time it returns `False`
without raising; and under the 10-second backoff (the `i`-th failure reads
elapsed time at least `10 * i`) a verdict is always reached within 32
attempts, so the loop never blocks indefinitely. -/
theorem send_retry_bounded (trace : List SendAttempt) :
    (∀ rest, send_message_loop (SendAttempt.success :: rest) = some true) ∧
    (∀ e rest, MAX_SEND_RETRY_TIME < e →
      send_message_loop (SendAttempt.failure e :: rest) = some false) ∧
    ((∀ i (hi : i < trace.length) e,
        trace.get ⟨i, hi⟩ = SendAttempt.failure e → 10 * i ≤ e) →
      32 ≤ trace.length → (send_message_loop trace).isSome = true) := by
  refine ⟨fun rest => rfl, ?_, ?_⟩
  · intro e rest he
    unfold send_message_loop
    rw [if_pos he]
  · intro hgrow hlen
    cases hres : send_message_loop trace with
    | some b => rfl
    | none =>
      exfalso
      have h31 : 31 < trace.length := by omega
      obtain ⟨e, hget, hle⟩ := send_message_loop_none trace hres 31 h31
      have := hgrow 31 h31 e hget
      unfold MAX_SEND_RETRY_TIME at hle
      omega

/-- Witness for C6: an immediate success returns `True`, and a run of 32
failures each read at elapsed time 1000 reaches a verdict. -/
theorem send_retry_bounded_witness :
    send_message_loop [SendAttempt.success] = some true ∧
    (send_message_loop (List.replicate 32 (SendAttempt.failure 1000))).isSome = true := by
  constructor
  · exact (send_retry_bounded []).1 []
  · apply (send_retry_bounded (List.replicate 32 (SendAttempt.failure 1000))).2.2
    · intro i hi e hget
      simp only [List.get_eq_getElem, List.getElem_replicate] at hget
      cases hget
      have : i < 32 := by simpa using hi
      omega
    · simp

/-! ## Message encoder: serial packet framing (claim C7)

`BetaBrite.send_message` (lines 578-584) builds one byte packet.  Bytes are
modelled as `Nat` code points; Python's `text.encode("ascii", "ignore")`
keeps exactly the code points below 128 and drops the rest without ever
raising. -/

/-- `text.encode("ascii", "ignore")`. -/
def asciiIgnore (text : List Nat) : List Nat := text.filter (fun c => decide (c < 128))

/-- The packet built by `BetaBrite.send_message`:
`NUL*10 + SOH + b"Z00" + STX + b"AA" + ESC + SP + mode + ascii(text) + EOT`. -/
def send_message_packet (mode : Nat) (text : List Nat) : List Nat :=
  List.replicate 10 0x00 ++ [0x01] ++ [0x5A, 0x30, 0x30] ++ [0x02] ++ [0x41, 0x41]
    ++ [0x1B] ++ [0x20] ++ [mode] ++ asciiIgnore text ++ [0x04]

/-- The frame as the specification words it: a synchronization preamble of
ten null bytes; a start-of-header byte followed by the type code and fixed
two-character device address (`"Z00"`); a start-of-text byte followed by the
fixed two-character memory label (`"AA"`); an escape byte, a space and the
mode character; the payload text as 7-bit ASCII with every non-ASCII
character dropped; an end-of-transmission byte. -/
def specFrame (mode : Nat) (text : List Nat) : List Nat :=
  let preamble := List.replicate 10 0
  let startOfHeader := 0x01
  let address := [0x5A, 0x30, 0x30]
  let startOfText := 0x02
  let memoryLabel := [0x41, 0x41]
  let escape := 0x1B
  let space := 0x20
  let payload := text.filter (fun c => decide (c < 128))
  let endOfTransmission := 0x04
  preamble ++ startOfHeader :: address ++ startOfText :: memoryLabel
    ++ escape :: space :: mode :: payload ++ [endOfTransmission]

/-- C7: for every text and mode character, the byte frame written to the
serial transport is exactly the hardware frame the specification describes,
with non-ASCII code points dropped rather than raising. -/
theorem packet_framing_exact (mode : Nat) (text : List Nat) :
    send_message_packet mode text = specFrame mode text := by
  simp [send_message_packet, specFrame, asciiIgnore]

/-! ## Display text assembly and truncation (claim C5)

`build_colored_blocks` (lines 615-621) and the assembly/truncation step of
`send_forecast` (lines 731-739). -/

/-- The field-separator control character `FS = "\x1C"`. -/
def FS : Char := Char.ofNat 28

/-- `COLORS_TODAY`. -/
def COLORS_TODAY : List Char := ['3']

/-- `COLORS_FUTURE`. -/
def COLORS_FUTURE : List Char := ['4', '5', '6', '7', '8']

/-- The loop of `build_colored_blocks`, carrying the block index: each block
is prefixed by `FS` and the cyclically assigned color code and followed by
two spaces.  (`getD`'s default is unreachable: both palettes are nonempty,
and an empty palette would be a fatal `IndexError` in the source.) -/
def build_colored_blocks_go (color_seq : List Char) : Nat → List (List Char) → List Char
  | _, [] => []
  | i, b :: rest =>
    FS :: color_seq.getD (i % color_seq.length) FS ::
      (b ++ [' ', ' '] ++ build_colored_blocks_go color_seq (i + 1) rest)

/-- `build_colored_blocks`. -/
def build_colored_blocks (blocks : List (List Char)) (mode : String) : List Char :=
  let color_seq := if mode == "today" then COLORS_TODAY else COLORS_FUTURE
  build_colored_blocks_go color_seq 0 blocks

/-- The message assembly and truncation of `send_forecast`: concatenate
colored today and future blocks with the next-update text and alert
suffixes; if over the size limit rebuild with only the first 3 future
blocks; if still over, hard-truncate and append `"..."`. -/
def send_forecast_message (today_blocks future_blocks : List (List Char))
    (update_text nhc_text nws_text : List Char) : List Char :=
  let colored_text := build_colored_blocks today_blocks "today"
    ++ build_colored_blocks future_blocks "future"
  let full_message := colored_text ++ update_text ++ nhc_text ++ nws_text
  if MAX_DISPLAY_MESSAGE_SIZE < full_message.length then
    let full_message2 := build_colored_blocks today_blocks "today"
      ++ build_colored_blocks (future_blocks.take 3) "future"
      ++ update_text ++ nhc_text ++ nws_text
    if MAX_DISPLAY_MESSAGE_SIZE < full_message2.length then
      full_message2.take (MAX_DISPLAY_MESSAGE_SIZE - 3) ++ ['.', '.', '.']
    else full_message2
  else full_message

/-- Length of the colored-block text: each block contributes its length plus
4 (the `FS`, the color code and the two trailing spaces). -/
theorem build_colored_blocks_go_length (color_seq : List Char) :
    ∀ (blocks : List (List Char)) (i : Nat),
      (build_colored_blocks_go color_seq i blocks).length =
        (blocks.map (fun b => b.length + 4)).sum := by
  intro blocks
  induction blocks with
  | nil => intro i; rfl
  | cons hd tl ih =>
    intro i
    simp only [build_colored_blocks_go, List.map_cons, List.sum_cons, List.length_cons,
      List.length_append, List.length_nil, ih (i + 1)]
    omega

/-- The sum of a prefix of a list of naturals is at most the full sum. -/
theorem sum_take_le (l : List Nat) : ∀ k : Nat, (l.take k).sum ≤ l.sum := by
  induction l with
  | nil => intro k; simp
  | cons hd tl ih =>
    intro k
    match k with
    | 0 => simp
    | k + 1 =>
      simp only [List.take_succ_cons, List.sum_cons]
      have := ih k
      omega

/-- Dropping future blocks past the first 3 never lengthens the colored
text. -/
theorem build_colored_blocks_take_length_le (blocks : List (List Char)) (k : Nat)
    (mode : String) :
    (build_colored_blocks (blocks.take k) mode).length ≤
      (build_colored_blocks blocks mode).length := by
  unfold build_colored_blocks
  rw [build_colored_blocks_go_length, build_colored_blocks_go_length, List.map_take]
  exact sum_take_le _ k

/-- Every block fed to `build_colored_blocks_go` appears contiguously in its
output. -/
theorem build_colored_blocks_go_infix (color_seq : List Char) (b : List Char) :
    ∀ (blocks : List (List Char)) (i : Nat), b ∈ blocks →
      b <:+: build_colored_blocks_go color_seq i blocks := by
  intro blocks
  induction blocks with
  | nil => intro i h; exact absurd h (by simp)
  | cons hd tl ih =>
    intro i hmem
    rcases List.mem_cons.mp hmem with rfl | hmem
    · refine ⟨[FS, color_seq.getD (i % color_seq.length) FS],
        [' ', ' '] ++ build_colored_blocks_go color_seq (i + 1) tl, ?_⟩
      simp [build_colored_blocks_go]
    · obtain ⟨s, t, hst⟩ := ih (i + 1) hmem
      refine ⟨FS :: color_seq.getD (i % color_seq.length) FS :: (hd ++ [' ', ' '] ++ s), t, ?_⟩
      simp [build_colored_blocks_go, hst]

/-- Every block fed to `build_colored_blocks` appears contiguously in its
output. -/
theorem build_colored_blocks_infix (blocks : List (List Char)) (mode : String)
    (b : List Char) (hb : b ∈ blocks) : b <:+: build_colored_blocks blocks mode :=
  build_colored_blocks_go_infix _ b blocks 0 hb

/-- C5 counterexample: a single today block of 2044 characters (raw length
under the 2048 limit, and even its colored form is exactly 2048) together
with a 10-character next-update suffix makes the naive concatenation exceed
the limit with no future block to drop, so the hard truncation cuts into
the today block: the sent message does not contain the block. -/
theorem today_block_can_be_cut :
    (List.replicate 2044 'x').length ≤ MAX_DISPLAY_MESSAGE_SIZE ∧
    (build_colored_blocks [List.replicate 2044 'x'] "today").length
      ≤ MAX_DISPLAY_MESSAGE_SIZE ∧
    MAX_DISPLAY_MESSAGE_SIZE <
      (build_colored_blocks [List.replicate 2044 'x'] "today"
        ++ build_colored_blocks [] "future"
        ++ List.replicate 10 'u' ++ ([] : List Char) ++ ([] : List Char)).length ∧
    ¬ List.replicate 2044 'x' <:+:
        send_forecast_message [List.replicate 2044 'x'] [] (List.replicate 10 'u') [] [] := by
  have hbct0 : build_colored_blocks [List.replicate 2044 'x'] "today" =
      FS :: '3' :: ((List.replicate 2044 'x' ++ [' ', ' ']) ++ []) := rfl
  have hbct : build_colored_blocks [List.replicate 2044 'x'] "today" =
      FS :: '3' :: (List.replicate 2044 'x' ++ [' ', ' ']) := by
    rw [hbct0, List.append_nil]
  have hbcf : build_colored_blocks ([] : List (List Char)) "future" = [] := rfl
  have hlen : (build_colored_blocks [List.replicate 2044 'x'] "today"
      ++ build_colored_blocks ([] : List (List Char)) "future"
      ++ List.replicate 10 'u' ++ ([] : List Char) ++ ([] : List Char)).length = 2058 := by
    rw [hbct, hbcf]
    simp only [List.append_nil, List.nil_append, List.length_cons, List.length_append,
      List.length_replicate, List.length_nil]
  have hcond : MAX_DISPLAY_MESSAGE_SIZE <
      (build_colored_blocks [List.replicate 2044 'x'] "today"
        ++ build_colored_blocks ([] : List (List Char)) "future"
        ++ List.replicate 10 'u' ++ ([] : List Char) ++ ([] : List Char)).length := by
    rw [hlen]
    norm_num [MAX_DISPLAY_MESSAGE_SIZE]
  have hout : send_forecast_message [List.replicate 2044 'x'] [] (List.replicate 10 'u') [] [] =
      (FS :: '3' :: List.replicate 2043 'x') ++ ['.', '.', '.'] := by
    unfold send_forecast_message
    simp only [List.take_nil]
    rw [if_pos hcond, if_pos hcond, hbct, hbcf]
    simp only [List.append_nil, List.nil_append, List.cons_append, List.append_assoc]
    have hM : MAX_DISPLAY_MESSAGE_SIZE - 3 = 2045 := rfl
    rw [hM]
    have hsplit : FS :: '3' :: (List.replicate 2044 'x' ++ (' ' :: ' ' :: List.replicate 10 'u')) =
        [FS, '3'] ++ (List.replicate 2044 'x' ++ (' ' :: ' ' :: List.replicate 10 'u')) := rfl
    rw [hsplit, List.take_append_eq_append_take]
    have e1 : List.take 2045 [FS, '3'] = [FS, '3'] := rfl
    have e2 : 2045 - ([FS, '3'] : List Char).length = 2043 := rfl
    rw [e1, e2, List.take_append_eq_append_take, List.take_replicate, List.length_replicate]
    have e3 : min 2043 2044 = 2043 := rfl
    have e4 : 2043 - 2044 = 0 := rfl
    rw [e3, e4, List.take_zero, List.append_nil]
    rfl
  refine ⟨?_, ?_, hcond, ?_⟩
  · rw [List.length_replicate]
    norm_num [MAX_DISPLAY_MESSAGE_SIZE]
  · rw [hbct]
    simp only [List.length_cons, List.length_append, List.length_replicate, List.length_nil]
    norm_num [MAX_DISPLAY_MESSAGE_SIZE]
  · intro hinf
    have hcle := hinf.sublist.count_le 'x'
    rw [hout] at hcle
    have hc1 : List.count 'x' (List.replicate 2044 'x') = 2044 :=
      List.count_replicate_self 'x' 2044
    have hc2 : List.count 'x' ((FS :: '3' :: List.replicate 2043 'x') ++ ['.', '.', '.']) =
        2043 := by
      rw [List.count_append, List.count_cons_of_ne (by decide), List.count_cons_of_ne (by decide),
        List.count_replicate_self, List.count_cons_of_ne (by decide),
        List.count_cons_of_ne (by decide), List.count_cons_of_ne (by decide), List.count_nil]
    rw [hc1, hc2] at hcle
    omega

/-- C5 amended: the sent message never exceeds the 2048-character limit;
future blocks past the first 3 are dropped before any today content is
touched; every today block is contiguously present in the output whenever
the rebuilt message (all today blocks, first 3 future blocks, suffixes)
fits in the limit; and when even the rebuilt message exceeds the limit the
output is its first 2045 characters followed by an ellipsis marker — which
can cut into a today block even when the today blocks alone fit. -/
theorem truncation_rules (today future : List (List Char)) (u n w : List Char) :
    (send_forecast_message today future u n w).length ≤ MAX_DISPLAY_MESSAGE_SIZE ∧
    ((build_colored_blocks today "today" ++ build_colored_blocks (future.take 3) "future"
        ++ u ++ n ++ w).length ≤ MAX_DISPLAY_MESSAGE_SIZE →
      ∀ b ∈ today, b <:+: send_forecast_message today future u n w) ∧
    (MAX_DISPLAY_MESSAGE_SIZE <
        (build_colored_blocks today "today" ++ build_colored_blocks (future.take 3) "future"
          ++ u ++ n ++ w).length →
      send_forecast_message today future u n w =
        (build_colored_blocks today "today" ++ build_colored_blocks (future.take 3) "future"
          ++ u ++ n ++ w).take (MAX_DISPLAY_MESSAGE_SIZE - 3) ++ ['.', '.', '.']) := by
  have hre : (build_colored_blocks today "today"
      ++ build_colored_blocks (future.take 3) "future" ++ u ++ n ++ w).length ≤
      (build_colored_blocks today "today" ++ build_colored_blocks future "future"
        ++ u ++ n ++ w).length := by
    have := build_colored_blocks_take_length_le future 3 "future"
    simp only [List.length_append]
    omega
  unfold send_forecast_message
  by_cases h1 : MAX_DISPLAY_MESSAGE_SIZE <
      (build_colored_blocks today "today" ++ build_colored_blocks future "future"
        ++ u ++ n ++ w).length
  · rw [if_pos h1]
    by_cases h2 : MAX_DISPLAY_MESSAGE_SIZE <
        (build_colored_blocks today "today" ++ build_colored_blocks (future.take 3) "future"
          ++ u ++ n ++ w).length
    · rw [if_pos h2]
      refine ⟨?_, fun hfit => absurd h2 (by omega), fun _ => rfl⟩
      have h3 : (['.', '.', '.'] : List Char).length = 3 := rfl
      simp only [List.length_append, List.length_take, h3]
      have hM : MAX_DISPLAY_MESSAGE_SIZE = 2048 := rfl
      omega
    · rw [if_neg h2]
      refine ⟨by omega, ?_, fun hover => absurd hover h2⟩
      intro hfit b hb
      obtain ⟨s, t, hst⟩ := build_colored_blocks_infix today "today" b hb
      exact ⟨s, t ++ (build_colored_blocks (future.take 3) "future" ++ u ++ n ++ w), by
        rw [← hst]; simp [List.append_assoc]⟩
  · rw [if_neg h1]
    refine ⟨by omega, ?_, fun hover => absurd (by omega : MAX_DISPLAY_MESSAGE_SIZE <
      (build_colored_blocks today "today" ++ build_colored_blocks future "future"
        ++ u ++ n ++ w).length) h1⟩
    intro hfit b hb
    obtain ⟨s, t, hst⟩ := build_colored_blocks_infix today "today" b hb
    exact ⟨s, t ++ (build_colored_blocks future "future" ++ u ++ n ++ w), by
      rw [← hst]; simp [List.append_assoc]⟩

/-- Witness for C5 amended: a short message fits, so its today block is
contiguously present in the sent message, and the bound holds. -/
theorem truncation_rules_witness :
    (send_forecast_message [['a', 'b']] [] ['!'] [] []).length ≤ MAX_DISPLAY_MESSAGE_SIZE ∧
    ['a', 'b'] <:+: send_forecast_message [['a', 'b']] [] ['!'] [] [] := by
  have h := truncation_rules [['a', 'b']] [] ['!'] [] []
  exact ⟨h.1, h.2.1 (by decide) ['a', 'b'] (by decide)⟩

end BetaBriteWriter
